import Mathlib

/-
Verification development for the hubproxy request-plane engine.

Text is modelled as List Char (Go strings are byte strings; all inputs that
matter here are ASCII, where Go and Lean case folding and comparisons agree).
Durations are modelled in int64 nanoseconds as Go time.Duration does, with
explicit wraparound where an overflow is possible.  Stateful Go code is
modelled by explicit state passing.
-/

/-- Conversion from a Lean string literal to the List Char text model. -/
def str (s : String) : List Char := s.data

/-- Substring test, mirroring Go strings.Contains: true iff pat occurs
contiguously in l (the empty pattern occurs in every string). -/
def containsSub (pat : List Char) : List Char → Bool
  | [] => pat.isEmpty
  | c :: rest => pat.isPrefixOf (c :: rest) || containsSub pat rest

/-- Wraparound of an unbounded integer into the int64 range, as Go
arithmetic on int64 does on overflow. -/
def i64wrap (x : Int) : Int := (x + 2 ^ 63) % 2 ^ 64 - 2 ^ 63

theorem i64wrap_eq_self (x : Int) (hlo : -(2 ^ 63) ≤ x) (hhi : x < 2 ^ 63) :
    i64wrap x = x := by
  unfold i64wrap
  have h0 : (0 : Int) ≤ x + 2 ^ 63 := by omega
  have h1 : x + 2 ^ 63 < 2 ^ 64 := by omega
  rw [Int.emod_eq_of_lt h0 h1]
  omega

/-- Nanoseconds in one second (Go time.Second). -/
def nsPerSecond : Int := 1000000000

/-- Nanoseconds in one minute (Go time.Minute). -/
def nsPerMinute : Int := 60 * nsPerSecond

/--
Token-cache TTL extractor, from ExtractTTLFromResponse (token cache utils).
The Go code unmarshals the response body into a struct with an int field
expires_in; the decode outcome is modelled by an Option Int argument:
none when json.Unmarshal returns an error, some v with the decoded value
otherwise (v = 0 when the field is absent).  The Go computation
time.Duration(expiresIn-300) * time.Second runs in int64 nanoseconds and can
wrap, which i64wrap reproduces.  Returns the TTL in nanoseconds.
-/
def extractTTLFromResponse (decoded : Option Int) : Int :=
  let defaultTTL : Int := 30 * nsPerMinute
  match decoded with
  | some expiresIn =>
    if 0 < expiresIn then
      let safeTTL : Int := i64wrap ((expiresIn - 300) * nsPerSecond)
      if 5 * nsPerMinute < safeTTL then safeTTL else defaultTTL
    else defaultTTL
  | none => defaultTTL

/--
Token TTL policy as the claim words it: max(expires_in - 300 seconds,
5 minutes) when the body decodes with a positive expires_in, else 30 minutes.
Written from the claim for comparison against the source extractor.
-/
def claimTokenTTL (decoded : Option Int) : Int :=
  match decoded with
  | some expiresIn =>
    if 0 < expiresIn then max ((expiresIn - 300) * nsPerSecond) (5 * nsPerMinute)
    else 30 * nsPerMinute
  | none => 30 * nsPerMinute

/--
Auth shim token-store step, from proxyDockerAuthWithCache: after relaying,
when the recorded status is 200 and the recorded body is nonempty, the token
is stored with the TTL produced by ExtractTTLFromResponse; otherwise nothing
is stored.  Returns the TTL attached to the stored entry, if any.
-/
def authShimStoredTTL (status : Nat) (bodyNonempty : Bool) (decoded : Option Int) :
    Option Int :=
  if status = 200 ∧ bodyNonempty then some (extractTTLFromResponse decoded) else none

/-- Claim C1 counterexample: for the response body with expires_in equal to
400 (a decode outcome of some 400, e.g. the JSON text with field expires_in
set to 400), the source extractor returns the 30 minute default, while the
claimed formula max(expires_in - 300 s, 5 min) demands 5 minutes. -/
theorem extractTTL_c1_counterexample :
    extractTTLFromResponse (some 400) = 30 * nsPerMinute ∧
    claimTokenTTL (some 400) = 5 * nsPerMinute ∧
    extractTTLFromResponse (some 400) ≠ claimTokenTTL (some 400) := by
  refine ⟨?_, ?_, ?_⟩ <;>
    norm_num [extractTTLFromResponse, claimTokenTTL, i64wrap, nsPerSecond, nsPerMinute]

/-- Claim C1 (amended): the TTL the token-cache extractor returns - and that
the auth shim attaches when storing a 200 token response - equals
expires_in - 300 seconds when the body decodes with a positive expires_in
whose adjusted value exceeds 5 minutes, and 30 minutes in every other case
(decode failure, nonpositive or absent expires_in, or adjusted value at or
below 5 minutes); the stated equality holds for expires_in up to 9e9, below
which the int64 nanosecond computation cannot wrap. -/
theorem extractTTL_c1_amended :
    (∀ e : Int, 0 < e → e ≤ 9 * 10 ^ 9 →
      extractTTLFromResponse (some e) =
        if 5 * nsPerMinute < (e - 300) * nsPerSecond then (e - 300) * nsPerSecond
        else 30 * nsPerMinute) ∧
    (∀ e : Int, e ≤ 0 → extractTTLFromResponse (some e) = 30 * nsPerMinute) ∧
    extractTTLFromResponse none = 30 * nsPerMinute ∧
    (∀ (status : Nat) (bodyNonempty : Bool) (decoded : Option Int) (ttl : Int),
      authShimStoredTTL status bodyNonempty decoded = some ttl →
      ttl = extractTTLFromResponse decoded ∧ status = 200 ∧ bodyNonempty = true) := by
  refine ⟨?_, ?_, ?_, ?_⟩
  · intro e he hbound
    have hw : i64wrap ((e - 300) * nsPerSecond) = (e - 300) * nsPerSecond := by
      apply i64wrap_eq_self <;> simp only [nsPerSecond] <;> nlinarith
    simp only [extractTTLFromResponse, if_pos he, hw]
  · intro e he
    have : ¬ (0 < e) := by omega
    simp [extractTTLFromResponse, this]
  · rfl
  · intro status bodyNonempty decoded ttl h
    unfold authShimStoredTTL at h
    by_cases hc : status = 200 ∧ bodyNonempty = true
    · rw [if_pos hc] at h
      exact ⟨(Option.some.injEq _ _).mp h.symm |>.symm ▸ rfl, hc.1, hc.2⟩
    · rw [if_neg hc] at h
      exact absurd h (by simp)

/-- Claim C1 witness: the amended statement applied at expires_in 1000
yields a TTL of 700 seconds. -/
theorem extractTTL_c1_amended_witness :
    extractTTLFromResponse (some 1000) = 700 * nsPerSecond := by
  have h := extractTTL_c1_amended.1 1000 (by norm_num) (by norm_num)
  rw [h]
  norm_num [nsPerSecond, nsPerMinute]

/-- Request classification from parseRequestInfo in smart_ratelimit.go. -/
inductive ReqType where
  | manifests
  | blobs
  | tags
  | unknown
deriving DecidableEq

/-- Index of the first occurrence of pat in a text, mirroring Go
strings.Index (none encodes the Go result -1). -/
def firstIdxOfSub (pat : List Char) : List Char → Option Nat
  | [] => if pat.isEmpty then some 0 else none
  | c :: rest =>
    if pat.isPrefixOf (c :: rest) then some 0
    else (firstIdxOfSub pat rest).map (· + 1)

/-- Go strings.TrimPrefix: drop pre when it heads the text, else identity. -/
def trimPre (pre l : List Char) : List Char :=
  if pre.isPrefixOf l then l.drop pre.length else l

/-- Path parser from parseRequestInfo: strip the /v2/ head, then look for
/manifests/, /blobs/, /tags/ in that order; the text before the separator is
the image reference. -/
def parseRequestInfo (path : List Char) : ReqType × List Char :=
  let p := trimPre (str "/v2/") path
  match firstIdxOfSub (str "/manifests/") p with
  | some i => (ReqType.manifests, p.take i)
  | none =>
    match firstIdxOfSub (str "/blobs/") p with
    | some i => (ReqType.blobs, p.take i)
    | none =>
      match firstIdxOfSub (str "/tags/") p with
      | some i => (ReqType.tags, p.take i)
      | none => (ReqType.unknown, [])

/-- Per-address pull session from smart_ratelimit.go; the Go zero time
(LastManifestTime.IsZero) is modelled by none. -/
structure PullSession where
  lastManifestTime : Option Int
  requestCount : Nat
deriving DecidableEq

/-- Active window after a manifest fetch (3 minutes, in nanoseconds). -/
def activeWindowDuration : Int := 3 * nsPerMinute

/-- Cap on free blob requests inside the active window. -/
def maxFreeBlobRequests : Nat := 100

/--
ShouldSkipRateLimit from smart_ratelimit.go, acting on the session of the
calling address: manifests always count (return false) but refresh the
session; blobs inside the 3 minute window bump the counter and are exempt
while the bumped counter stays at or below 100; everything else counts.
Returns the exemption flag and the updated session.
-/
def shouldSkipRateLimit (sess : PullSession) (now : Int) (path : List Char) :
    Bool × PullSession :=
  let rt := (parseRequestInfo path).1
  if rt ≠ ReqType.manifests ∧ rt ≠ ReqType.blobs then (false, sess)
  else if rt = ReqType.manifests then (false, ⟨some now, 0⟩)
  else
    match sess.lastManifestTime with
    | some t =>
      if now - t ≤ activeWindowDuration then
        (decide (sess.requestCount + 1 ≤ maxFreeBlobRequests),
         ⟨some t, sess.requestCount + 1⟩)
      else (false, sess)
    | none => (false, sess)

/-- Smart-pull exemption as claim C5 words it, written from the claim text
for comparison with the source function: manifests set lastManifestAt to now,
reset the counter and return false; blobs within 3 minutes of the last
manifest increment the counter and are exempt exactly while the incremented
counter is at most 100; blobs outside the window and all other verbs return
false and leave the session unchanged. -/
def claimSmartExempt (sess : PullSession) (now : Int) (path : List Char) :
    Bool × PullSession :=
  match (parseRequestInfo path).1 with
  | ReqType.manifests => (false, ⟨some now, 0⟩)
  | ReqType.blobs =>
    match sess.lastManifestTime with
    | some t =>
      if now - t ≤ 3 * nsPerMinute then
        (decide (sess.requestCount + 1 ≤ 100), ⟨some t, sess.requestCount + 1⟩)
      else (false, sess)
    | none => (false, sess)
  | _ => (false, sess)

/-- Claim C5: for every session state, clock value and request path, the
smart-pull exemption of the source agrees with the behaviour the claim
describes: manifests refresh the window and are counted, blobs within 3
minutes of the last manifest are exempt exactly while the incremented
counter is at most 100, and every other request is counted and leaves the
session unchanged. -/
theorem shouldSkipRateLimit_c5 (sess : PullSession) (now : Int) (path : List Char) :
    shouldSkipRateLimit sess now path = claimSmartExempt sess now path := by
  unfold shouldSkipRateLimit claimSmartExempt
  rcases h : (parseRequestInfo path).1 with _ | _ | _ | _ <;>
    simp [activeWindowDuration, maxFreeBlobRequests]

example :
    (parseRequestInfo (str "/v2/library/nginx/manifests/latest")).1 = ReqType.manifests := by
  decide

example :
    (parseRequestInfo (str "/v2/library/nginx/blobs/sha256:a3")).1 = ReqType.blobs := by
  decide

/-- Parsed body of a POST to /api/image/batch, from handleSimpleBatchDownload
(fields images, platform, useCompressedLayers). -/
structure BatchRequest where
  images : List (List Char)
  platform : List Char
  useCompressedLayers : Option Bool

/-- Configured maximum of images per batch; config default (part of the
download section defaults) is 10. -/
def defaultMaxImages : Nat := 10

/-- Tag normalisation loop of handleSimpleBatchDownload: an entry with
neither a colon nor an at sign gets the latest tag appended. -/
def normalizeBatchImages (images : List (List Char)) : List (List Char) :=
  images.map (fun s =>
    if ¬ s.contains ':' ∧ ¬ s.contains '@' then s ++ str ":latest" else s)

/--
handleSimpleBatchDownload as a function of the bind outcome (none when the
JSON body fails to bind), the configured maximum and the debouncer verdict.
The result is the HTTP status paired with the number of upstream image pulls
performed (StreamMultipleImages pulls each listed image; every early return
performs none).
-/
def handleSimpleBatchDownload (maxImages : Nat) (debounceAllow : Bool)
    (req : Option BatchRequest) : Nat × Nat :=
  match req with
  | none => (400, 0)
  | some r =>
    if r.images.length = 0 then (400, 0)
    else
      let imgs := normalizeBatchImages r.images
      if maxImages < imgs.length then (400, 0)
      else if debounceAllow = false then (429, 0)
      else (200, imgs.length)

/-- Claim C9: a batch request whose images list is longer than the
configured maximum receives status 400 and triggers no upstream registry
pull, for every debouncer verdict. -/
theorem handleSimpleBatchDownload_c9 (maxImages : Nat) (debounceAllow : Bool)
    (r : BatchRequest) (h : maxImages < r.images.length) :
    handleSimpleBatchDownload maxImages debounceAllow (some r) = (400, 0) := by
  unfold handleSimpleBatchDownload
  have hlen : (normalizeBatchImages r.images).length = r.images.length := by
    simp [normalizeBatchImages]
  have h0 : ¬ (r.images.length = 0) := by omega
  simp only [h0, if_false, hlen]
  rw [if_pos h]

/-- Claim C9 witness: a list of defaultMaxImages + 1 = 11 images is rejected
with 400 and zero upstream pulls. -/
theorem handleSimpleBatchDownload_c9_witness :
    defaultMaxImages < (List.replicate 11 (str "nginx")).length ∧
    handleSimpleBatchDownload defaultMaxImages true
      (some ⟨List.replicate 11 (str "nginx"), [], none⟩) = (400, 0) :=
  ⟨by simp [defaultMaxImages],
   handleSimpleBatchDownload_c9 defaultMaxImages true _ (by simp [defaultMaxImages])⟩

/-- Upstream response as seen by the GitHub proxy redirect loop: a status
and the optional Location header (Go Header.Get returning the empty string
is modelled by none). -/
structure UpResp where
  status : Nat
  location : Option (List Char)

/-- Redirect cap of proxyGitHubWithRedirect. -/
def maxRedirects : Nat := 20

/--
Core of proxyGitHubWithRedirect.  The Go function guards on
redirectCount > 20 and otherwise issues one upstream request and, when the
response carries a Location that fails the CheckGitHubURL whitelist (the acc
oracle below), recurses with redirectCount + 1.  Here fuel is the number of
counts still below the guard, so fuel = 0 exactly when redirectCount > 20
(see proxyGitHubWithRedirect below); the pair returned is the final client
status and the number of upstream requests issued.  A whitelisted Location
is rewritten for the client and ends the recursion, as does a response with
no Location.
-/
def proxyRedirectGo (acc : List Char → Bool) (up : Nat → UpResp) :
    Nat → Nat → Nat × Nat
  | 0, _ => (508, 0)
  | fuel + 1, count =>
    let r := up count
    match r.location with
    | some loc =>
      if acc loc then (r.status, 1)
      else
        let rec' := proxyRedirectGo acc up fuel (count + 1)
        (rec'.1, rec'.2 + 1)
    | none => (r.status, 1)

/-- proxyGitHubWithRedirect from the GitHub proxy, over an upstream oracle
up (the response to the request issued at a given redirect count) and the
whitelist oracle acc standing for CheckGitHubURL matching.  The Go guard
redirectCount > maxRedirects holds exactly when 21 - redirectCount = 0 in
Nat, which is the fuel below. -/
def proxyGitHubWithRedirect (acc : List Char → Bool) (up : Nat → UpResp)
    (redirectCount : Nat) : Nat × Nat :=
  proxyRedirectGo acc up (maxRedirects + 1 - redirectCount) redirectCount

theorem proxyRedirectGo_requests_le (acc : List Char → Bool) (up : Nat → UpResp) :
    ∀ fuel count, (proxyRedirectGo acc up fuel count).2 ≤ fuel := by
  intro fuel
  induction fuel with
  | zero => intro count; simp [proxyRedirectGo]
  | succ n ih =>
    intro count
    unfold proxyRedirectGo
    rcases h : (up count).location with _ | loc
    · simp [h]
    · by_cases hacc : acc loc = true
      · simp [h, hacc]
      · simp only [h, Bool.not_eq_true] at hacc
        simp only [h, hacc, if_false]
        have := ih (count + 1)
        simpa using Nat.succ_le_succ this

/-- Claim C7: the manual redirect following of the GitHub proxy terminates
within the 20 hop budget: from redirect count zero at most 21 upstream
requests are ever issued (20 followed redirects), in general at most
21 - count from count, and as soon as the count exceeds 20 the client
receives status 508 while no further upstream request is issued. -/
theorem proxyGitHubWithRedirect_c7 (acc : List Char → Bool) (up : Nat → UpResp)
    (redirectCount : Nat) :
    (proxyGitHubWithRedirect acc up redirectCount).2 ≤ maxRedirects + 1 - redirectCount ∧
    (proxyGitHubWithRedirect acc up 0).2 ≤ maxRedirects + 1 ∧
    (maxRedirects < redirectCount →
      proxyGitHubWithRedirect acc up redirectCount = (508, 0)) := by
  refine ⟨proxyRedirectGo_requests_le acc up _ _, ?_, ?_⟩
  · simpa using proxyRedirectGo_requests_le acc up (maxRedirects + 1) 0
  · intro h
    unfold proxyGitHubWithRedirect
    have hz : maxRedirects + 1 - redirectCount = 0 := by omega
    rw [hz]
    rfl

/-- Claim C7 witness: at redirect count 21 the client gets 508 and no
upstream request is made, for a concrete always-redirecting upstream. -/
theorem proxyGitHubWithRedirect_c7_witness :
    proxyGitHubWithRedirect (fun _ => false)
      (fun _ => ⟨302, some (str "https://example.com/loop")⟩) 21 = (508, 0) :=
  (proxyGitHubWithRedirect_c7 (fun _ => false)
    (fun _ => ⟨302, some (str "https://example.com/loop")⟩) 21).2.2 (by decide)

/-- An IPv4 CIDR block: base address and mask width, both as the parsed
numeric forms net.ParseCIDR yields.  Addresses are 32 bit values. -/
structure CIDRBlock where
  base : Nat
  maskBits : Nat

/-- Membership of an address in a CIDR block (net.IPNet.Contains for IPv4):
the top maskBits bits agree. -/
def cidrContains (c : CIDRBlock) (ip : Nat) : Bool :=
  ip / 2 ^ (32 - c.maskBits) = c.base / 2 ^ (32 - c.maskBits)

/-- isIPInCIDRList from the rate limiter: true iff some block contains the
address. -/
def isIPInCIDRList (ip : Nat) (l : List CIDRBlock) : Bool :=
  l.any (fun c => cidrContains c ip)

/-- A golang.org/x/time/rate limiter as the code uses it: either built with
rate.Inf (whitelist path) or an ordinary token bucket.  Allow on a rate.Inf
limiter always succeeds; for a bucket it succeeds while a token is left
(token refill is elided; claim C10 only touches the unlimited form). -/
inductive GoLimiter where
  | unlimited (burst : Nat)
  | bucket (tokens : Nat) (burst : Nat)
deriving DecidableEq

/-- rate.Limiter.Allow. -/
def limiterAllow : GoLimiter → Bool
  | GoLimiter.unlimited _ => true
  | GoLimiter.bucket tokens _ => decide (0 < tokens)

/-- Entry of the per-IP map of IPRateLimiter. -/
structure RLEntry where
  limiter : GoLimiter
  lastAccess : Int
deriving DecidableEq

/-- Static part of IPRateLimiter: the parsed allow and deny CIDR lists and
the computed burst. -/
structure RLConfig where
  whitelist : List CIDRBlock
  blacklist : List CIDRBlock
  burst : Nat

/-- Map cap from the limiter constants (MaxIPCacheSize). -/
def maxIPCacheSize : Nat := 10000

/-- Idle based eviction horizon of the cleanup routine (1 hour). -/
def rlIdleLimit : Int := 60 * nsPerMinute

/--
GetLimiter from the rate limiter, with the per-IP map as an association
list keyed by the normalised address (IPv4 normalisation is the identity,
so the key is the address itself).  Deny list first: refused with no limiter.
Allow list next: a freshly built rate.Inf limiter, the map untouched.
Otherwise the existing entry has its lastAccess refreshed, or a fresh token
bucket entry is inserted.  Returns the limiter (none when refused) and the
updated map.
-/
def getLimiter (cfg : RLConfig) (st : List (Nat × RLEntry)) (now : Int) (ip : Nat) :
    Option GoLimiter × List (Nat × RLEntry) :=
  if isIPInCIDRList ip cfg.blacklist then (none, st)
  else if isIPInCIDRList ip cfg.whitelist then
    (some (GoLimiter.unlimited cfg.burst), st)
  else
    match st.lookup ip with
    | some entry =>
      (some entry.limiter,
       st.map (fun kv => if kv.1 = ip then (ip, ⟨entry.limiter, now⟩) else kv))
    | none =>
      (some (GoLimiter.bucket cfg.burst cfg.burst),
       st ++ [(ip, ⟨GoLimiter.bucket cfg.burst cfg.burst, now⟩)])

/-- cleanupRoutine body from the rate limiter: drop entries idle longer than
an hour, then wipe the whole map when it still exceeds the cap. -/
def cleanupSweep (now : Int) (st : List (Nat × RLEntry)) : List (Nat × RLEntry) :=
  let kept := st.filter (fun kv => ¬ (rlIdleLimit < now - kv.2.lastAccess))
  if maxIPCacheSize < kept.length then [] else kept

/-- Claim C10 counterexample: an address inside an allow-list CIDR that also
sits inside a deny-list CIDR is refused outright (the deny list is checked
first), not given an unlimited bucket as the claim, quantified over every
allow-listed address, requires.  The address 1.2.3.4 below is in the
allow-list block 0.0.0.0/0 and in the deny-list block 1.2.3.4/32. -/
theorem getLimiter_c10_counterexample :
    isIPInCIDRList 16909060 [CIDRBlock.mk 0 0] = true ∧
    getLimiter (RLConfig.mk [CIDRBlock.mk 0 0] [CIDRBlock.mk 16909060 32] 100) [] 0 16909060
      = (none, []) := by
  constructor
  · decide
  · rfl

/-- Claim C10 (amended): for every source address contained in an allow-list
CIDR and in no deny-list CIDR, GetLimiter returns a fresh rate.Inf bucket
and leaves the per-IP map exactly as it was, whatever its contents; Allow on
that bucket always succeeds, so such addresses are never rejected by bucket
exhaustion, never occupy a map slot counted against the 10000 entry cap, and
the verdict is unchanged by any cleanup sweep of the map. -/
theorem getLimiter_c10_amended (cfg : RLConfig) (st : List (Nat × RLEntry))
    (now : Int) (ip : Nat)
    (hw : isIPInCIDRList ip cfg.whitelist = true)
    (hb : isIPInCIDRList ip cfg.blacklist = false) :
    getLimiter cfg st now ip = (some (GoLimiter.unlimited cfg.burst), st) ∧
    limiterAllow (GoLimiter.unlimited cfg.burst) = true ∧
    (getLimiter cfg (cleanupSweep now st) now ip).1 = (getLimiter cfg st now ip).1 := by
  have h1 : getLimiter cfg st now ip = (some (GoLimiter.unlimited cfg.burst), st) := by
    unfold getLimiter
    rw [hb]
    simp [hw]
  have h2 : getLimiter cfg (cleanupSweep now st) now ip
      = (some (GoLimiter.unlimited cfg.burst), cleanupSweep now st) := by
    unfold getLimiter
    rw [hb]
    simp [hw]
  exact ⟨h1, rfl, by rw [h1, h2]⟩

/-- Claim C10 witness: the amended statement at the address 10.0.0.7
(167772167), allow list 10.0.0.0/8, deny list 192.168.0.0/16, and a
nonempty map: the map comes back untouched and the limiter is unlimited. -/
theorem getLimiter_c10_amended_witness :
    getLimiter (RLConfig.mk [CIDRBlock.mk 167772160 8] [CIDRBlock.mk 3232235520 16] 50)
      [(99, ⟨GoLimiter.bucket 1 50, 0⟩)] 5 167772167
      = (some (GoLimiter.unlimited 50), [(99, ⟨GoLimiter.bucket 1 50, 0⟩)]) :=
  (getLimiter_c10_amended
    (RLConfig.mk [CIDRBlock.mk 167772160 8] [CIDRBlock.mk 3232235520 16] 50)
    [(99, ⟨GoLimiter.bucket 1 50, 0⟩)] 5 167772167
    (by decide) (by decide)).1

/-- Characters of the leading class of the rewrite regex in proxy_shell.go:
whitespace (Go regexp class backslash-s is tab, newline, form feed, carriage
return, space), single and double quote, open paren, equals, comma, open
square bracket, open curly bracket, semicolon, pipe, ampersand, less than,
greater than. -/
def sepChars : List Char :=
  ['\t', '\n', '\x0c', '\r', ' ', '\'', '"', '(', '=', ',', '[', '\x7b',
   ';', '|', '&', '<', '>']

/-- Separator test for the leading alternative of the regex. -/
def sepClass (c : Char) : Bool := sepChars.contains c

/-- Characters that terminate the greedy URL tail of the regex (the negated
class: whitespace, single quote, double quote, close paren). -/
def stopChars : List Char := ['\t', '\n', '\x0c', '\r', ' ', '\'', '"', ')']

/-- Stop test for the URL tail. -/
def stopClass (c : Char) : Bool := stopChars.contains c

/-- The six host literals of the rewrite regex alternation. -/
def githubDomains : List (List Char) :=
  [str "github.com", str "raw.githubusercontent.com", str "raw.github.com",
   str "gist.githubusercontent.com", str "gist.github.com", str "api.github.com"]

/-- True when the rewrite regex body (scheme plus one of the six domains)
matches at the head of the text: http or https scheme, then a domain of the
alternation. -/
def urlMatchAt (l : List Char) : Bool :=
  if (str "https://").isPrefixOf l then
    githubDomains.any (fun d => d.isPrefixOf (l.drop 8))
  else if (str "http://").isPrefixOf l then
    githubDomains.any (fun d => d.isPrefixOf (l.drop 7))
  else false

/-- Scheme promotion step of transformURL: http becomes https (the Go code
replaces the first four bytes), and a scheme is prepended when neither an
absolute scheme nor a protocol-relative head is present. -/
def promoteScheme (url : List Char) : List Char :=
  if (str "http://").isPrefixOf url then str "https" ++ url.drop 4
  else if ¬ (str "https://").isPrefixOf url ∧ ¬ (str "//").isPrefixOf url then
    str "https://" ++ url
  else url

/-- Host normalisation step of transformURL: prepend https:// when the host
has no scheme, then trim one trailing slash (Go strings.TrimSuffix). -/
def normProxyHost (host : List Char) : List Char :=
  let h :=
    if ¬ (str "http://").isPrefixOf host ∧ ¬ (str "https://").isPrefixOf host then
      str "https://" ++ host
    else host
  if (str "/").isSuffixOf h then h.dropLast else h

/-- transformURL from proxy_shell.go: a URL already containing the host is
left alone; otherwise the scheme is promoted, the host normalised, and the
proxied form host/URL returned. -/
def transformURL (url host : List Char) : List Char :=
  if containsSub host url then url
  else normProxyHost host ++ '/' :: promoteScheme url

/--
Scanner equivalent of githubRegex.ReplaceAllStringFunc in processGitHubURLs.
The regex is anchored at the text start or at a separator character, matches
a scheme plus one of the six GitHub domains, and greedily consumes the
non-stop tail; the replacement keeps the leading separator and transforms
the URL.  The scanner walks the text left to right exactly so: fuel bounds
the recursion and always suffices because every step consumes at least one
character (the public wrapper passes the text length).
-/
def scanGo (host : List Char) : Nat → Bool → List Char → List Char
  | 0, _, l => l
  | _ + 1, _, [] => []
  | fuel + 1, atStart, c :: rest =>
    if atStart ∧ urlMatchAt (c :: rest) then
      let url := (c :: rest).takeWhile (fun x => ! stopClass x)
      let after := (c :: rest).dropWhile (fun x => ! stopClass x)
      transformURL url host ++ scanGo host fuel false after
    else if sepClass c ∧ urlMatchAt rest then
      let url := rest.takeWhile (fun x => ! stopClass x)
      let after := rest.dropWhile (fun x => ! stopClass x)
      c :: (transformURL url host ++ scanGo host fuel false after)
    else
      c :: scanGo host fuel false rest

/-- processGitHubURLs from proxy_shell.go. -/
def processGitHubURLs (content host : List Char) : List Char :=
  scanGo host content.length true content

/-- A piece of the match decomposition of a text under the rewrite regex:
either a literal character or a matched URL with its optional leading
separator. -/
inductive GhPiece where
  | lit (c : Char)
  | url (sep : Option Char) (u : List Char)
deriving DecidableEq

/-- Tokenizer running the exact scan of scanGo but recording the pieces
instead of rewriting them. -/
def tokGo : Nat → Bool → List Char → List GhPiece
  | 0, _, l => l.map GhPiece.lit
  | _ + 1, _, [] => []
  | fuel + 1, atStart, c :: rest =>
    if atStart ∧ urlMatchAt (c :: rest) then
      GhPiece.url none ((c :: rest).takeWhile (fun x => ! stopClass x)) ::
        tokGo fuel false ((c :: rest).dropWhile (fun x => ! stopClass x))
    else if sepClass c ∧ urlMatchAt rest then
      GhPiece.url (some c) (rest.takeWhile (fun x => ! stopClass x)) ::
        tokGo fuel false (rest.dropWhile (fun x => ! stopClass x))
    else
      GhPiece.lit c :: tokGo fuel false rest

/-- Match decomposition of a text. -/
def ghTokens (content : List Char) : List GhPiece :=
  tokGo content.length true content

/-- Rendering of one piece as processGitHubURLs emits it. -/
def renderPiece (host : List Char) : GhPiece → List Char
  | GhPiece.lit c => [c]
  | GhPiece.url sep u => sep.toList ++ transformURL u host

/-- Match detector running the exact scan of scanGo. -/
def hasGo : Nat → Bool → List Char → Bool
  | 0, _, _ => false
  | _ + 1, _, [] => false
  | fuel + 1, atStart, c :: rest =>
    if atStart ∧ urlMatchAt (c :: rest) then true
    else if sepClass c ∧ urlMatchAt rest then true
    else hasGo fuel false rest

/-- True when the rewrite regex matches somewhere in the text. -/
def hasGithubMatch (content : List Char) : Bool :=
  hasGo content.length true content

theorem join_map_singleton (l : List Char) :
    (l.map (fun c => [c])).flatten = l := by
  induction l with
  | nil => rfl
  | cons c rest ih => simp [ih]

theorem scanGo_eq_render (host : List Char) :
    ∀ fuel atStart l,
      scanGo host fuel atStart l = ((tokGo fuel atStart l).map (renderPiece host)).flatten := by
  intro fuel
  induction fuel with
  | zero =>
    intro atStart l
    simp only [scanGo, tokGo, List.map_map]
    rw [show (renderPiece host ∘ GhPiece.lit) = (fun c => [c]) from rfl]
    exact (join_map_singleton l).symm
  | succ n ih =>
    intro atStart l
    match l with
    | [] => rfl
    | c :: rest =>
      simp only [scanGo, tokGo]
      by_cases h1 : atStart ∧ urlMatchAt (c :: rest) = true
      · simp [h1, renderPiece, ih]
      · by_cases h2 : sepClass c ∧ urlMatchAt rest = true
        · simp [h1, h2, renderPiece, ih]
        · simp [h1, h2, renderPiece, ih]

theorem scanGo_id_of_no_match (host : List Char) :
    ∀ fuel atStart l, hasGo fuel atStart l = false → scanGo host fuel atStart l = l := by
  intro fuel
  induction fuel with
  | zero => intro atStart l _; rfl
  | succ n ih =>
    intro atStart l hm
    match l with
    | [] => rfl
    | c :: rest =>
      simp only [hasGo] at hm
      by_cases h1 : atStart ∧ urlMatchAt (c :: rest) = true
      · rw [if_pos h1] at hm; exact absurd hm (by simp)
      · rw [if_neg h1] at hm
        by_cases h2 : sepClass c ∧ urlMatchAt rest = true
        · rw [if_pos h2] at hm; exact absurd hm (by simp)
        · rw [if_neg h2] at hm
          simp only [scanGo]
          rw [if_neg h1, if_neg h2, ih false rest hm]

/-- Claim C3 counterexample: with proxy host proxy.io, the input consisting
of a close paren directly followed by a GitHub URL passes through the
rewriter unchanged, because a close paren is not in the separator class of
the regex; the output therefore contains a URL beginning with
https://github.com whose preceding text (the single close paren) does not
contain the proxy host at all, refuting the for-every-output-URL claim. -/
theorem processGitHubURLs_c3_counterexample :
    processGitHubURLs (str ")https://github.com/a") (str "proxy.io")
      = [')'] ++ (str "https://" ++ str "github.com") ++ str "/a" ∧
    str "github.com" ∈ githubDomains ∧
    containsSub (str "proxy.io") [')'] = false := by
  refine ⟨by decide, by decide, by decide⟩

/-- Claim C3 (amended): the rewriter output is exactly the concatenation of
the match decomposition of the input - literal characters for unmatched
text, and for every URL the regex matches (at the text start or after a
separator character), the optional separator followed by the transformed
URL - and every matched URL that does not contain the proxy host as a
substring is emitted as the normalised proxy host, a slash, and the
scheme-promoted URL, hence prefixed by the proxy host.  URLs the regex does
not match (such as one preceded by a close paren) and matched URLs that
contain the proxy host pass through unchanged. -/
theorem processGitHubURLs_c3_amended (s h : List Char) :
    processGitHubURLs s h = ((ghTokens s).map (renderPiece h)).flatten ∧
    (∀ sep u, GhPiece.url sep u ∈ ghTokens s → containsSub h u = false →
      renderPiece h (GhPiece.url sep u)
        = sep.toList ++ (normProxyHost h ++ '/' :: promoteScheme u)) := by
  refine ⟨scanGo_eq_render h s.length true s, ?_⟩
  intro sep u _ hc
  simp [renderPiece, transformURL, hc]

/-- Claim C3 witness: in the text curl (space) URL (space) pipe bash, the
matched URL piece is rendered as the proxied form behind proxy.io. -/
theorem processGitHubURLs_c3_amended_witness :
    renderPiece (str "proxy.io")
        (GhPiece.url (some ' ') (str "https://github.com/u/r/raw/main/sub.sh"))
      = (some ' ').toList ++ (normProxyHost (str "proxy.io") ++ '/' ::
          promoteScheme (str "https://github.com/u/r/raw/main/sub.sh")) :=
  (processGitHubURLs_c3_amended
      (str "curl https://github.com/u/r/raw/main/sub.sh | bash") (str "proxy.io")).2
    (some ' ') (str "https://github.com/u/r/raw/main/sub.sh") (by decide) (by decide)

/-- Claim C4 counterexample: rewriting is not idempotent.  An equals sign is
in the separator class of the regex but not in its stop class, so the input
with two equals-joined GitHub URLs is matched as a single URL and rewritten
once; the rewritten text exposes the second URL behind an equals sign, and a
second pass rewrites it again, changing the text. -/
theorem processGitHubURLs_c4_counterexample :
    processGitHubURLs
        (processGitHubURLs (str "=https://github.com/a=https://github.com/b")
          (str "proxy.io"))
        (str "proxy.io")
      ≠ processGitHubURLs (str "=https://github.com/a=https://github.com/b")
          (str "proxy.io") := by
  decide

/-- Claim C4 (amended): rewriting is idempotent whenever its output admits
no further regex match - in particular whenever no separator-preceded
GitHub URL remains in the output; a second pass is then the identity on it.
Full idempotence for every input fails (see the counterexample, where the
first pass leaves a separator-preceded GitHub URL in its output). -/
theorem processGitHubURLs_c4_amended (s h : List Char)
    (hnm : hasGithubMatch (processGitHubURLs s h) = false) :
    processGitHubURLs (processGitHubURLs s h) h = processGitHubURLs s h :=
  scanGo_id_of_no_match h (processGitHubURLs s h).length true (processGitHubURLs s h) hnm

/-- Claim C4 witness: for a typical script line the first rewrite output has
no further match and the second pass leaves it unchanged. -/
theorem processGitHubURLs_c4_amended_witness :
    hasGithubMatch
        (processGitHubURLs (str "curl http://github.com/a") (str "proxy.io")) = false ∧
    processGitHubURLs
        (processGitHubURLs (str "curl http://github.com/a") (str "proxy.io"))
        (str "proxy.io")
      = processGitHubURLs (str "curl http://github.com/a") (str "proxy.io") :=
  ⟨by decide, processGitHubURLs_c4_amended (str "curl http://github.com/a")
    (str "proxy.io") (by decide)⟩

/-- MaxShellSize from proxy_shell.go: 10 MiB. -/
def maxShellSize : Nat := 10 * 1024 * 1024

/--
readShellContent from proxy_shell.go, modelled on the decoded byte stream
(the gzip branch is abstracted to its output: when the Content-Encoding hint
is set and the magic bytes are present, the Go code reads the decompressed
stream, else the raw one; either way the check below sees the decoded
bytes).  The code reads at most MaxShellSize + 1 bytes through a
LimitReader and fails when more than MaxShellSize arrived.
-/
def readShellContent (decoded : List Char) : Except (List Char) (List Char) :=
  let data := decoded.take (maxShellSize + 1)
  if maxShellSize < data.length then Except.error (str "script too large")
  else Except.ok data

/-- ProcessSmart from proxy_shell.go: read with the cap, pass empty content
and content without any GitHub host mention through unchanged, otherwise
rewrite the GitHub URLs; returns the content and its size, or the fatal
error. -/
def processSmart (decoded host : List Char) : Except (List Char) (List Char × Nat) :=
  match readShellContent decoded with
  | Except.error e => Except.error e
  | Except.ok content =>
    if content.length = 0 then Except.ok ([], 0)
    else if containsSub (str "github.com") content = false ∧
        containsSub (str "githubusercontent.com") content = false then
      Except.ok (content, content.length)
    else
      Except.ok (processGitHubURLs content host, (processGitHubURLs content host).length)

/-- Script branch of proxyGitHubWithRedirect for a .sh or .ps1 target: when
ProcessSmart fails the handler answers 502 and returns before copying any
body byte; on success it streams the processed content.  The pair is the
client status and the body bytes emitted. -/
def scriptBranch (decoded host : List Char) : Nat × List Char :=
  match processSmart decoded host with
  | Except.error _ => (502, [])
  | Except.ok (body, _) => (200, body)

/-- Claim C8: a decoded script body longer than 10 MiB makes the rewriter
return the fatal too-large error instead of content, and the GitHub proxy
answers 502 with no partial body bytes emitted. -/
theorem processSmart_c8 (decoded host : List Char)
    (h : maxShellSize < decoded.length) :
    processSmart decoded host = Except.error (str "script too large") ∧
    scriptBranch decoded host = (502, []) := by
  have hr : readShellContent decoded = Except.error (str "script too large") := by
    unfold readShellContent
    have hl : (decoded.take (maxShellSize + 1)).length = maxShellSize + 1 := by
      rw [List.length_take]
      omega
    rw [if_pos (by omega : maxShellSize < (decoded.take (maxShellSize + 1)).length)]
  have hp : processSmart decoded host = Except.error (str "script too large") := by
    unfold processSmart
    rw [hr]
  exact ⟨hp, by unfold scriptBranch; rw [hp]⟩

/-- Claim C8 witness: a body of 10 MiB + 1 bytes is over the cap and yields
502 with an empty emitted body. -/
theorem processSmart_c8_witness :
    maxShellSize < (List.replicate (maxShellSize + 1) 'a').length ∧
    scriptBranch (List.replicate (maxShellSize + 1) 'a') (str "proxy.io") = (502, []) :=
  ⟨by simp, (processSmart_c8 (List.replicate (maxShellSize + 1) 'a') (str "proxy.io")
    (by simp)).2⟩

/-- ASCII lowering, matching Go strings.ToLower on ASCII text. -/
def lowerStr (l : List Char) : List Char := l.map Char.toLower

/-- White space for Go strings.TrimSpace (ASCII portion). -/
def isSpaceChar (c : Char) : Bool :=
  [' ', '\t', '\n', '\x0b', '\x0c', '\r'].contains c

/-- Go strings.TrimSpace. -/
def trimSpace (l : List Char) : List Char :=
  ((l.dropWhile isSpaceChar).reverse.dropWhile isSpaceChar).reverse

/-- Index of the last occurrence of a character, mirroring Go
strings.LastIndex with a one byte needle (none for -1). -/
def lastIdxOf (ch : Char) (l : List Char) : Option Nat :=
  ((l.enum.filter (fun p => p.2 == ch)).map (fun p => p.1)).getLast?

/-- Go strings.Split with a one byte separator. -/
def splitOnChar (ch : Char) (l : List Char) : List (List Char) :=
  l.foldr
    (fun c acc =>
      match acc with
      | [] => [[c]]
      | a :: rest => if c = ch then [] :: (a :: rest) else (c :: a) :: rest)
    [[]]

/-- Parsed image name from ParseDockerImage in access_control.go. -/
structure DockerImageInfo where
  nspace : List Char
  repository : List Char
  tag : List Char
  fullName : List Char
deriving DecidableEq

/-- ParseDockerImage from access_control.go: strip a docker scheme, split a
trailing tag (a colon part counts as a tag only when it has no slash),
then derive namespace and repository (a dotted first part is a registry
domain and is dropped; a bare name lives under library). -/
def parseDockerImage (image : List Char) : DockerImageInfo :=
  let image1 := trimPre (str "docker://") image
  let tagSplit :=
    match lastIdxOf ':' image1 with
    | some idx =>
      let part := image1.drop (idx + 1)
      if part.contains '/' then ([], image1) else (part, image1.take idx)
    | none => ([], image1)
  let tag := if tagSplit.1.isEmpty then str "latest" else tagSplit.1
  let image2 := tagSplit.2
  let nr :=
    if image2.contains '/' then
      match splitOnChar '/' image2 with
      | p0 :: p1 :: rest =>
        if p0.contains '.' then
          match rest with
          | p2 :: _ => (p1, p2)
          | [] => (str "library", p1)
        else (p0, p1)
      | _ => ([], [])
    else (str "library", image2)
  { nspace := nr.1, repository := nr.2, tag := tag,
    fullName := nr.1 ++ '/' :: nr.2 }

/--
One iteration of the list loop in matchImageInList: the item is trimmed and
lowered, then compared against the lowered full name and namespace by the
pattern forms of the source - exact, owner level, suffix wildcard,
star-slash repository (note: the wildcard star-slash branch compares the
original-case Repository field, unlike every other branch), and parent
directory.
-/
def matchOneImageItem (info : DockerImageInfo) (rawItem : List Char) : Bool :=
  let item := lowerStr (trimSpace rawItem)
  if item.isEmpty then false
  else
    let fullName := lowerStr info.fullName
    let nspace := lowerStr info.nspace
    (fullName == item) ||
    (item == nspace || item == nspace ++ str "/*") ||
    (if (str "*").isSuffixOf item then (item.dropLast).isPrefixOf fullName
     else false) ||
    (if (str "*/").isPrefixOf item then
       let repoPat := item.drop 2
       if (str "*").isSuffixOf repoPat then
         (repoPat.dropLast).isPrefixOf info.repository
       else lowerStr info.repository == repoPat
     else false) ||
    ((item ++ ['/']).isPrefixOf fullName)

/-- matchImageInList from access_control.go. -/
def matchImageInList (info : DockerImageInfo) (list : List (List Char)) : Bool :=
  list.any (matchOneImageItem info)

/-- Verdict reasons of CheckDockerAccess. -/
inductive AccessReason where
  | allowed
  | notInWhitelist
  | inBlacklist
deriving DecidableEq

/-- CheckDockerAccess from access_control.go: whitelist applies only when
nonempty, then blacklist only when nonempty. -/
def checkDockerAccess (whiteList blackList : List (List Char)) (image : List Char) :
    Bool × AccessReason :=
  let info := parseDockerImage image
  if 0 < whiteList.length ∧ matchImageInList info whiteList = false then
    (false, AccessReason.notInWhitelist)
  else if 0 < blackList.length ∧ matchImageInList info blackList = true then
    (false, AccessReason.inBlacklist)
  else (true, AccessReason.allowed)

/-- Claim C6: the star-slash wildcard pattern is not case-insensitive on the
image side.  With whitelist */abc* the image owner/abc is allowed while
owner/ABC - the same name up to case - is denied, because the wildcard
branch compares the original-case repository against the lowered pattern;
the neighbouring exact star-slash branch (pattern */abc against owner/ABC)
lowers the repository and does match, showing the missing fold is a slip in
that one branch. -/
theorem checkDockerAccess_c6_bug :
    checkDockerAccess [str "*/abc*"] [] (str "owner/abc") = (true, AccessReason.allowed) ∧
    checkDockerAccess [str "*/abc*"] [] (str "owner/ABC") = (false, AccessReason.notInWhitelist) ∧
    checkDockerAccess [str "*/abc"] [] (str "owner/ABC") = (true, AccessReason.allowed) ∧
    lowerStr (str "owner/ABC") = str "owner/abc" := by
  refine ⟨by decide, by decide, by decide, by decide⟩

/-- Core loop of Go strings.ReplaceAll for a nonempty pattern: scan left to
right, at each position replace the leftmost occurrence of pat and continue
after it.  Fuel bounds the recursion; every step consumes at least one
character, so the text length suffices. -/
def replaceAllGo (pat rep : List Char) : Nat → List Char → List Char
  | 0, l => l
  | _ + 1, [] => []
  | fuel + 1, c :: rest =>
    if pat.isPrefixOf (c :: rest) then
      rep ++ replaceAllGo pat rep fuel ((c :: rest).drop pat.length)
    else c :: replaceAllGo pat rep fuel rest

/-- Go strings.ReplaceAll(s, pat, rep); all patterns used in this
development are nonempty, and the empty pattern is mapped to the identity. -/
def replaceAll (s pat rep : List Char) : List Char :=
  if pat.isEmpty then s else replaceAllGo pat rep s.length s

/-- Segments of a text between the non-overlapping leftmost occurrences of
a pattern, by the same scan as replaceAllGo. -/
def splitSubGo (pat : List Char) : Nat → List Char → List (List Char)
  | 0, l => [l]
  | _ + 1, [] => [[]]
  | fuel + 1, c :: rest =>
    if pat.isPrefixOf (c :: rest) then
      [] :: splitSubGo pat fuel ((c :: rest).drop pat.length)
    else
      match splitSubGo pat fuel rest with
      | [] => [[c]]
      | a :: more => (c :: a) :: more

/-- Occurrence decomposition of a text along a pattern. -/
def splitSub (s pat : List Char) : List (List Char) :=
  if pat.isEmpty then [s] else splitSubGo pat s.length s

/-- Concatenation of segments with a separator between consecutive ones;
joinWith sep (splitSub s pat) is the text s with every occurrence of pat
replaced by sep. -/
def joinWith (sep : List Char) : List (List Char) → List Char
  | [] => []
  | [a] => a
  | a :: b :: t => a ++ sep ++ joinWith sep (b :: t)

theorem splitSubGo_ne_nil (pat : List Char) :
    ∀ fuel l, splitSubGo pat fuel l ≠ [] := by
  intro fuel
  induction fuel with
  | zero => intro l; simp [splitSubGo]
  | succ n ih =>
    intro l
    match l with
    | [] => simp [splitSubGo]
    | c :: rest =>
      simp only [splitSubGo]
      by_cases h : pat.isPrefixOf (c :: rest) = true
      · simp [h]
      · simp only [h, if_false]
        rcases hs : splitSubGo pat n rest with _ | ⟨a, more⟩
        · simp
        · simp

theorem replaceAllGo_eq_joinWith (pat rep : List Char) :
    ∀ fuel l, replaceAllGo pat rep fuel l = joinWith rep (splitSubGo pat fuel l) := by
  intro fuel
  induction fuel with
  | zero => intro l; rfl
  | succ n ih =>
    intro l
    match l with
    | [] => rfl
    | c :: rest =>
      simp only [replaceAllGo, splitSubGo]
      by_cases h : pat.isPrefixOf (c :: rest) = true
      · rw [if_pos h, if_pos h, ih]
        rcases hs : splitSubGo pat n ((c :: rest).drop pat.length) with _ | ⟨a, more⟩
        · exact absurd hs (splitSubGo_ne_nil pat n _)
        · simp [joinWith]
      · rw [if_neg h, if_neg h, ih]
        rcases hs : splitSubGo pat n rest with _ | ⟨a, more⟩
        · exact absurd hs (splitSubGo_ne_nil pat n rest)
        · rcases more with _ | ⟨b, t⟩ <;> simp [joinWith]

theorem replaceAll_eq_joinWith (s pat rep : List Char) (hpat : pat ≠ []) :
    replaceAll s pat rep = joinWith rep (splitSub s pat) := by
  unfold replaceAll splitSub
  rw [if_neg (by simpa using hpat), if_neg (by simpa using hpat)]
  exact replaceAllGo_eq_joinWith pat rep s.length s

/-- rewriteAuthHeader from the token-auth shim (handlers/docker.go): four
sequential ReplaceAll calls, each rewriting one upstream auth host literal
to the proxied http form. -/
def rewriteAuthHeader (authHeader proxyHost : List Char) : List Char :=
  let rep := str "http://" ++ proxyHost
  let h1 := replaceAll authHeader (str "https://auth.docker.io") rep
  let h2 := replaceAll h1 (str "https://ghcr.io") rep
  let h3 := replaceAll h2 (str "https://gcr.io") rep
  replaceAll h3 (str "https://quay.io") rep

/-- Proxy host selection of proxyDockerAuthOriginal: the request Host field
when nonempty, else the configured listener authority, with localhost
substituted for the 0.0.0.0 wildcard host.  The port is passed as its
decimal digits. -/
def chooseProxyHost (hostHeader cfgHost cfgPortDigits : List Char) : List Char :=
  if hostHeader.isEmpty then
    if cfgHost = str "0.0.0.0" then str "localhost:" ++ cfgPortDigits
    else cfgHost ++ ':' :: cfgPortDigits
  else hostHeader

/-- Response-header relay of proxyDockerAuthOriginal: every header passes
through, with the Www-Authenticate value run through rewriteAuthHeader.
The xfh argument carries the X-Forwarded-Host request header, which the
handler has available but never reads - it is listed to state claim C2.
Headers are modelled single-valued (gin c.Header sets, so for a repeated
key the last value would win). -/
def proxyAuthRespHeaders (_xfh hostHeader cfgHost cfgPortDigits : List Char)
    (respHeaders : List (List Char × List Char)) : List (List Char × List Char) :=
  let ph := chooseProxyHost hostHeader cfgHost cfgPortDigits
  respHeaders.map (fun kv =>
    if kv.1 = str "Www-Authenticate" then (kv.1, rewriteAuthHeader kv.2 ph) else kv)

/-- Proxy host selection as claim C2 words it: X-Forwarded-Host first, then
the Host header, then the configured listener authority.  Written from the
claim for comparison with the source selection. -/
def c2ClaimProxyHost (xfh hostHeader cfgHost cfgPortDigits : List Char) : List Char :=
  if ¬ xfh.isEmpty then xfh
  else if ¬ hostHeader.isEmpty then hostHeader
  else if cfgHost = str "0.0.0.0" then str "localhost:" ++ cfgPortDigits
  else cfgHost ++ ':' :: cfgPortDigits

/-- Response-header relay as claim C2 words it. -/
def c2ClaimRespHeaders (xfh hostHeader cfgHost cfgPortDigits : List Char)
    (respHeaders : List (List Char × List Char)) : List (List Char × List Char) :=
  let ph := c2ClaimProxyHost xfh hostHeader cfgHost cfgPortDigits
  respHeaders.map (fun kv =>
    if kv.1 = str "Www-Authenticate" then (kv.1, rewriteAuthHeader kv.2 ph) else kv)

/-- Claim C2 counterexample: with X-Forwarded-Host cdn.example.com and Host
proxy.local, the source rewrites the challenge realm to http://proxy.local,
while the claim requires http://cdn.example.com; the handler never consults
X-Forwarded-Host. -/
theorem proxyAuthRespHeaders_c2_counterexample :
    proxyAuthRespHeaders (str "cdn.example.com") (str "proxy.local")
        (str "0.0.0.0") (str "5000")
        [(str "Www-Authenticate", str "Bearer realm=\"https://auth.docker.io/token\"")]
      = [(str "Www-Authenticate", str "Bearer realm=\"http://proxy.local/token\"")] ∧
    c2ClaimRespHeaders (str "cdn.example.com") (str "proxy.local")
        (str "0.0.0.0") (str "5000")
        [(str "Www-Authenticate", str "Bearer realm=\"https://auth.docker.io/token\"")]
      = [(str "Www-Authenticate", str "Bearer realm=\"http://cdn.example.com/token\"")] ∧
    proxyAuthRespHeaders (str "cdn.example.com") (str "proxy.local")
        (str "0.0.0.0") (str "5000")
        [(str "Www-Authenticate", str "Bearer realm=\"https://auth.docker.io/token\"")]
      ≠ c2ClaimRespHeaders (str "cdn.example.com") (str "proxy.local")
        (str "0.0.0.0") (str "5000")
        [(str "Www-Authenticate", str "Bearer realm=\"https://auth.docker.io/token\"")] := by
  refine ⟨by decide, by decide, by decide⟩

/-- Claim C2 (amended): the relayed headers are exactly the upstream headers
with only the Www-Authenticate value changed; its value becomes the original
text with, pattern after pattern, every occurrence of
https://auth.docker.io, https://ghcr.io, https://gcr.io and https://quay.io
replaced by http://<proxyHost> (the occurrence segments joined by the
replacement), where <proxyHost> is the request Host header when nonempty and
the configured listener authority otherwise; the X-Forwarded-Host header is
never consulted (the result is the same for every value of it). -/
theorem proxyAuthRespHeaders_c2_amended (xfh hostHeader cfgHost cfgPortDigits : List Char)
    (respHeaders : List (List Char × List Char)) :
    (proxyAuthRespHeaders xfh hostHeader cfgHost cfgPortDigits respHeaders
      = respHeaders.map (fun kv =>
          if kv.1 = str "Www-Authenticate" then
            (kv.1,
              joinWith (str "http://" ++ chooseProxyHost hostHeader cfgHost cfgPortDigits)
                (splitSub
                  (joinWith (str "http://" ++ chooseProxyHost hostHeader cfgHost cfgPortDigits)
                    (splitSub
                      (joinWith (str "http://" ++ chooseProxyHost hostHeader cfgHost cfgPortDigits)
                        (splitSub
                          (joinWith (str "http://" ++ chooseProxyHost hostHeader cfgHost cfgPortDigits)
                            (splitSub kv.2 (str "https://auth.docker.io")))
                          (str "https://ghcr.io")))
                      (str "https://gcr.io")))
                  (str "https://quay.io")))
          else kv)) ∧
    (∀ xfh' : List Char,
      proxyAuthRespHeaders xfh' hostHeader cfgHost cfgPortDigits respHeaders
        = proxyAuthRespHeaders xfh hostHeader cfgHost cfgPortDigits respHeaders) := by
  constructor
  · unfold proxyAuthRespHeaders
    apply List.map_congr_left
    intro kv _
    by_cases hk : kv.1 = str "Www-Authenticate"
    · rw [if_pos hk, if_pos hk]
      unfold rewriteAuthHeader
      rw [replaceAll_eq_joinWith _ _ _ (by decide),
          replaceAll_eq_joinWith _ _ _ (by decide),
          replaceAll_eq_joinWith _ _ _ (by decide),
          replaceAll_eq_joinWith _ _ _ (by decide)]
    · rw [if_neg hk, if_neg hk]
  · intro xfh'
    rfl
